import Mathlib

/-!
Verification of the expense-advisor analysis pipeline.

This file gives a shallow embedding of the pipeline stages of the
repository (statement ingestion, the categorization cascade, the
other-operations reclassifier, recurring-payment detection, the savings
estimator, the behavior model's advice generation and the report
assembler) and proves the specified properties about them.

Modelling conventions:
  - pandas DataFrames become Lean lists of structure values; a stage that
    mutates the table in place becomes a function from the old table value
    to the new one, and a Python local name that is rebound (for example
    to a filtered copy) becomes a fresh Lean binding;
  - monetary amounts and all arithmetic are exact rationals; the one
    square-root comparison in the sources (coefficient of variation) is
    embedded in its equivalent squared form, noted at its definition;
  - external ML library calls (sentence-transformer embeddings, sklearn
    MCC-free classifiers, DBSCAN) are deterministic per run and enter the
    embedding as function parameters, so every theorem holds for every
    possible behavior of those models.
-/

namespace ExpenseAdvisor

/-! ## String helpers (Python `.lower()` and substring membership) -/

/-- ASCII-style lowercasing of every character, as a total function on
strings; used to embed Python's case-insensitive substring tests. -/
def lowerStr (s : String) : String :=
  ⟨s.data.map Char.toLower⟩

/-- Check that the first list is a prefix of the second, on characters. -/
def charsStartWith : List Char → List Char → Bool
  | [], _ => true
  | _ :: _, [] => false
  | a :: as, b :: bs => a == b && charsStartWith as bs

/-- Check that `needle` occurs contiguously inside `hay`. -/
def charsHaveSub (needle : List Char) : List Char → Bool
  | [] => charsStartWith needle []
  | c :: rest => charsStartWith needle (c :: rest) || charsHaveSub needle rest

/-- Python's `needle in hay` on strings. -/
def strContains (hay needle : String) : Bool :=
  charsHaveSub needle.data hay.data

/-- Truncation `s[:n]` of a Python string. -/
def strTake (n : Nat) (s : String) : String :=
  ⟨s.data.take n⟩

/-! ## Data model (§3): the normalized transaction table -/

/-- Calendar date of a transaction (timezone-naive). -/
structure Date where
  year : Nat
  month : Nat
  day : Nat
deriving DecidableEq, Repr

/-- Normalized transaction row produced by the ingestor:
`date | description | amount | category | mcc`. -/
structure TxRow where
  date : Date
  description : String
  amount : ℚ
  category : String
  mcc : Option Nat
deriving DecidableEq, Repr

/-- Transaction row after the categorizer has added its derived columns. -/
structure CatRow where
  date : Date
  description : String
  amount : ℚ
  category : String
  mcc : Option Nat
  is_money : Bool
  mcc_category : Option String
  semantic_category : String
  semantic_score : ℚ
  final_category : String
deriving DecidableEq, Repr

/-- Base columns of a categorized row (the columns the categorizer reads). -/
def CatRow.base (r : CatRow) : TxRow :=
  { date := r.date, description := r.description, amount := r.amount,
    category := r.category, mcc := r.mcc }

/-! ## Finance keywords and the money-movement test

The `FINANCE_KEYWORDS` constant lives in a domain entity module that is
not among the sources; only its use sites are. -/

/-- Modelled from the spec: the finance-keyword set of the missing
`domain/entites/category.py`, "a transfer/top-up detected by keyword"
(case-insensitive substrings of the description). -/
def FINANCE_KEYWORDS : List String :=
  ["перевод", "пополнение"]

/-- Embeds `is_money_movement` of `loader/smart_category.py`: the
description, lowercased, contains some finance keyword. -/
def is_money_movement (desc : String) : Bool :=
  FINANCE_KEYWORDS.any (fun k => strContains (lowerStr desc) k)

/-! ## Transaction categorizer (§4.2)

Embeds `SmartCategory.smart_category` of `loader/smart_category.py`
(`TransactionCategorizer.smart_category` is its verbatim twin).
`MCCHelper.classify_by_mcc` lives in a missing entity module and the
semantic classifier calls an external embedding model, so both enter as
function parameters `mccClassify`, `semCat` and `semScore`. -/

/-- Sentinel the cascade compares the bank category against. -/
def otherOpsSentinel : String := "Прочие операции"

/-- Category assigned to money-movement operations. -/
def financialOps : String := "Финансовые операции"

/-- One row of `smart_category`: computes the derived columns and the
`final_category` nested `np.where` cascade of the source. -/
def smart_category (mccClassify : Option Nat → Option String)
    (semCat : String → String) (semScore : String → ℚ) (r : TxRow) : CatRow :=
  let im := is_money_movement r.description
  let mc := mccClassify r.mcc
  let sc := semCat r.description
  { date := r.date, description := r.description, amount := r.amount,
    category := r.category, mcc := r.mcc,
    is_money := im, mcc_category := mc, semantic_category := sc,
    semantic_score := semScore r.description,
    final_category :=
      if im then financialOps
      else if r.category ≠ otherOpsSentinel then r.category
      else match mc with
        | some c => c
        | none => sc }

/-- Table-level run of the categorizer stage. -/
def smartCategoryTable (mccClassify : Option Nat → Option String)
    (semCat : String → String) (semScore : String → ℚ)
    (df : List TxRow) : List CatRow :=
  df.map (smart_category mccClassify semCat semScore)

/-! ### Claim-side cascade: an ordered first-match rule list

Restates §4.2 the way the spec words it (and the way §9 proposes to
re-architect it): an ordered rule list evaluated top to bottom, stopping
at the first rule that produces a value. -/

/-- Evaluate an ordered rule list, returning the first produced value. -/
def firstMatch (rules : List (TxRow → Option String)) (r : TxRow) : Option String :=
  match rules with
  | [] => none
  | f :: rest =>
    match f r with
    | some v => some v
    | none => firstMatch rest r

/-- The four cascade rules of §4.2, in priority order. -/
def cascadeRules (mccClassify : Option Nat → Option String)
    (semCat : String → String) : List (TxRow → Option String) :=
  [ fun r => if is_money_movement r.description then some financialOps else none,
    fun r => if r.category ≠ otherOpsSentinel then some r.category else none,
    fun r => mccClassify r.mcc,
    fun r => some (semCat r.description) ]

/-! ## Other-operations reclassifier (§4.3)

Embeds `ClassificationOtherOperation.classify_other_operations` of
`classification_other_operations/classifications.py`. The sklearn
model fitted by `train_category_model` is an external library object;
its row-wise prediction on a description enters as the parameter
`predict`. The source masks on the bank `category` column, writes
predictions into `final_category` under the mask, and writes the bank
`category` verbatim into `final_category` outside the mask. -/

def classify_other_operations (predict : String → String)
    (df : List CatRow) : List CatRow :=
  df.map (fun r =>
    if r.category = otherOpsSentinel then
      { r with final_category := predict r.description }
    else
      { r with final_category := r.category })

/-! ## Recurring-payment detector (§4.4)

Embeds `SearchForRegularExpenses` of
`regular_expenses/search_for_regular_expenses.py` (its twin
`RecurringPaymentDetector` differs only by not truncating the
representative description). DBSCAN is an external library whose labels
are a deterministic function of the group list; it enters as the
parameter `labelFn`. -/

/-- Embeds `_filter_real_expenses`: keep genuine expenses only
(not money movements, strictly negative amounts). The source returns a
`.copy()`, so the stage never writes into its input table. -/
def filter_real_expenses (df : List CatRow) : List CatRow :=
  df.filter (fun r => !r.is_money && decide (r.amount < 0))

/-- Character class of Python's regex `\w` as applied here: after digits
were removed, word characters are letters, underscore; non-ASCII
characters (Cyrillic letters) count as word characters. -/
def isWordChar (c : Char) : Bool :=
  c.isAlpha || c == '_' || decide (128 ≤ c.toNat)

/-- Whitespace test matching the regex class `\s` on the inputs used. -/
def isSpaceChar (c : Char) : Bool :=
  c == ' ' || c == '\t' || c == '\n' || c == '\r'

/-- Collapse runs of spaces to one space (regex `\s+` → single space). -/
def collapseSpaces : List Char → List Char
  | [] => []
  | c :: rest =>
    if isSpaceChar c then
      match collapseSpaces rest with
      | [] => [' ']
      | d :: ds => if d == ' ' then d :: ds else ' ' :: d :: ds
    else c :: collapseSpaces rest

/-- Drop leading and trailing spaces (Python `.strip()` after collapse). -/
def stripSpaces (l : List Char) : List Char :=
  ((l.dropWhile (· == ' ')).reverse.dropWhile (· == ' ')).reverse

/-- Embeds `_normalize_description`: lowercase, digits → space,
non-word non-space characters → space, collapse whitespace, strip. -/
def normalize_description (text : String) : String :=
  let lowered := text.data.map Char.toLower
  let noDigits := lowered.map (fun c => if c.isDigit then ' ' else c)
  let noPunct := noDigits.map (fun c => if isWordChar c || isSpaceChar c then c else ' ')
  ⟨stripSpaces (collapseSpaces noPunct)⟩

/-- Embeds `_build_merchant_id`: normalized description, a pipe, and the
MCC rendered as text (empty when null). -/
def build_merchant_id (r : CatRow) : String :=
  normalize_description r.description ++ "|" ++
    (match r.mcc with
      | some m => toString m
      | none => "")

/-- Row of the detector's local working copy after the
`df["merchant_id"] = df.apply(self._build_merchant_id, axis=1)`
assignment: the filtered copy's columns plus the `merchant_id` column.
The pipeline's main table (`CatRow`) never gains this column. -/
structure MRow extends CatRow where
  merchant_id : String
deriving DecidableEq, Repr

/-- Adds the `merchant_id` column to the (copied) expense table. -/
def addMerchantIds (rows : List CatRow) : List MRow :=
  rows.map (fun r => { toCatRow := r, merchant_id := build_merchant_id r })

/-- One merchant group as aggregated by the detector's `groupby().agg`. -/
structure MGroup where
  merchant_id : String
  description : String
  dates : List Date
  amounts : List ℚ
  count : Nat
  total : ℚ
deriving DecidableEq, Repr

/-- Embeds the `groupby("merchant_id").agg(...)` step: one group per
distinct merchant id, collecting that merchant's rows in table order.
Pandas emits groups in sorted key order; this embedding emits them in
first-occurrence order, a permutation that none of the proved
properties depend on. -/
def aggGroups (rows : List MRow) : List MGroup :=
  ((rows.map (fun r => r.merchant_id)).dedup).map (fun k =>
    let g := rows.filter (fun r => r.merchant_id == k)
    { merchant_id := k,
      description := strTake 60 (((g.map (fun r => r.description)).headD "")),
      dates := g.map (fun r => r.date),
      amounts := g.map (fun r => r.amount),
      count := g.length,
      total := (g.map (fun r => r.amount)).sum })

/-- The detector's table of candidate groups: expense filter (a copy of
the input), merchant-id column on the copy, merchant grouping, and the
`count >= 3` filter, in source order. -/
def detectGroups (df : List CatRow) : List MGroup :=
  (aggGroups (addMerchantIds (filter_real_expenses df))).filter (fun g => 3 ≤ g.count)

/-- Month bucket of a date (`to_period("M")` as a month index). -/
def monthOf (d : Date) : Nat :=
  d.year * 12 + d.month

/-- Distinct calendar months with a payment in the group. -/
def nMonthsOf (g : MGroup) : Nat :=
  ((g.dates.map monthOf).dedup).length

/-- Month span covered by the group:
`(months.max() - months.min()).n + 1`. -/
def spanOf (g : MGroup) : Int :=
  let months := g.dates.map monthOf
  let h := months.headD 0
  ((months.foldl max h : Nat) : Int) - ((months.foldl min h : Nat) : Int) + 1

/-- Calendar-month coverage `n_months / span` of the group. -/
def coverageOf (g : MGroup) : ℚ :=
  (nMonthsOf g : ℚ) / (spanOf g : ℚ)

/-- Population mean of the group's amounts (`np.mean`). -/
def meanAmtOf (g : MGroup) : ℚ :=
  g.amounts.sum / (g.amounts.length : ℚ)

/-- Population variance of the group's amounts (square of `np.std`). -/
def varAmtOf (g : MGroup) : ℚ :=
  ((g.amounts.map (fun a => (a - meanAmtOf g) ^ 2)).sum) / (g.amounts.length : ℚ)

/-- The stability test `abs(std_amt / mean_amt) < 0.7`, embedded in its
equivalent squared form `var < 0.49 * mean ^ 2` (the standard deviation
is the nonnegative square root of the variance, so for `mean ≠ 0` the
two comparisons agree; for `mean = 0` the source's division yields
inf or nan, both failing the comparison, matching the `false` here). -/
def cvOk (g : MGroup) : Bool :=
  decide (meanAmtOf g ≠ 0) && decide (varAmtOf g < (49 / 100 : ℚ) * (meanAmtOf g) ^ 2)

/-- Embeds the inner `is_recurring` rule of `_detect_recurring_payments`:
at least 3 distinct months, coverage at least one half, stable amounts. -/
def is_recurring (g : MGroup) : Bool :=
  decide (3 ≤ nMonthsOf g) && decide ((1 / 2 : ℚ) ≤ coverageOf g) && cvOk g

/-- Embeds `_detect_recurring_payments` end to end. Each candidate group
is paired with its DBSCAN cluster label (the `cluster` column); the
early return on an empty candidate table mirrors the source's guard
before `np.vstack`. -/
def searchRun (labelFn : List MGroup → MGroup → Int)
    (df : List CatRow) : List (MGroup × Int) :=
  let gs := detectGroups df
  if gs.isEmpty then []
  else
    (gs.map (fun g => (g, labelFn gs g))).filter (fun p => is_recurring p.1)

/-! ## Monthly profile and savings estimator (§4.6, §4.7) -/

/-- One month-row of the behavior model's pivot: the month label, the
per-category absolute spending vector (one entry per pivot column, in a
fixed column order shared by the whole table), and the
`is_abnormal_month` flag produced by the isolation forest. -/
structure ProfileRow where
  month : String
  vals : List ℚ
  is_abnormal_month : Bool
deriving DecidableEq, Repr

/-- Column `j` of a list of month-rows. -/
def colVals (rows : List ProfileRow) (j : Nat) : List ℚ :=
  rows.map (fun r => r.vals.getD j 0)

/-- Mean of column `j` over the given month-rows (`DataFrame.mean`). -/
def colMean (rows : List ProfileRow) (j : Nat) : ℚ :=
  (colVals rows j).sum / (rows.length : ℚ)

/-- Python's `round` to an integer: round half to even. -/
def roundHalfEven (x : ℚ) : Int :=
  let f := Int.floor x
  let frac := x - (f : ℚ)
  if frac < 1 / 2 then f
  else if (1 / 2 : ℚ) < frac then f + 1
  else if f % 2 = 0 then f else f + 1

/-- Python's `round(x, 2)`. -/
def round2 (x : ℚ) : ℚ :=
  ((roundHalfEven (x * 100) : ℚ)) / 100

/-- Embeds `EstimateSavings._estimate_savings` of
`estimation_savings/estimate_savings.py`: zero if there are no normal
or no abnormal month-rows; otherwise half of the per-category overspend
of each abnormal month over the normal-month baseline, plus 60 percent
of the absolute recurring totals when any recurring group exists,
rounded to two decimals. -/
def estimate_savings (recurring_groups : List (MGroup × Int))
    (profile : List ProfileRow) : ℚ :=
  let normal := profile.filter (fun r => !r.is_abnormal_month)
  let abnormal := profile.filter (fun r => r.is_abnormal_month)
  if normal.length = 0 ∨ abnormal.length = 0 then 0
  else
    let overspend := (abnormal.map (fun row =>
      ((List.range row.vals.length).map (fun j =>
        let diff := row.vals.getD j 0 - colMean normal j
        if 0 < diff then diff * (1 / 2) else 0)).sum)).sum
    let subscriptions :=
      if 0 < recurring_groups.length then
        |((recurring_groups.map (fun p => p.1.total)).sum)| * (3 / 5)
      else 0
    round2 (overspend + subscriptions)

/-! ## Behavioral advice (§4.6 step 4)

Embeds `explain_monthly_anomalies` of both
`building_user_profile/build_user_profile.py` and
`behavior/user_behavior_model.py` (identical bodies). Number rendering
(`f"...{value:.0f}..."`) enters as the parameter `fmtQ`. -/

/-- The reassuring sentence emitted when no month is abnormal. -/
def stableAdvice : String :=
  "Ваш стиль расходов стабилен — резких сбоев не обнаружено."

/-- Insertion of one element into a list sorted descending by `f`. -/
def insertDescBy (f : α → ℚ) (a : α) : List α → List α
  | [] => [a]
  | b :: bs => if f b < f a then a :: b :: bs else b :: insertDescBy f a bs

/-- Sort a list descending by `f` (`sort_values(ascending=False)`). -/
def sortDescBy (f : α → ℚ) (l : List α) : List α :=
  l.foldr (insertDescBy f) []

/-- Insertion of one element into a list sorted ascending by `f`. -/
def insertAscBy (f : α → ℚ) (a : α) : List α → List α
  | [] => [a]
  | b :: bs => if f a < f b then a :: b :: bs else b :: insertAscBy f a bs

/-- Sort a list ascending by `f` (`sort_values()`). -/
def sortAscBy (f : α → ℚ) (l : List α) : List α :=
  l.foldr (insertAscBy f) []

/-- Embeds `explain_monthly_anomalies`: one reassuring sentence when no
month-row is abnormal, otherwise per abnormal month the top 3 category
deviations above the normal-month baseline, one sentence per positive
deviation. `cats` carries the pivot's column labels. -/
def explain_monthly_anomalies (fmtQ : ℚ → String) (cats : List String)
    (profile : List ProfileRow) : List String :=
  let normal := profile.filter (fun r => !r.is_abnormal_month)
  let abnormal := profile.filter (fun r => r.is_abnormal_month)
  if abnormal.length = 0 then [stableAdvice]
  else
    abnormal.flatMap (fun row =>
      let diffs := (List.range row.vals.length).map (fun j =>
        (cats.getD j "", row.vals.getD j 0 - colMean normal j))
      let top := (sortDescBy (fun p => p.2) diffs).take 3
      (top.filter (fun p => 0 < p.2)).map (fun p =>
        "В " ++ row.month ++ " траты по категории \x27" ++ p.1 ++
          "\x27 были выше нормы на " ++ fmtQ p.2 ++ " ₽. " ++
          "Это ключевая точка для оптимизации."))

/-! ## Report assembler (§4.8)

Embeds `FinancialIntelligencePipeline._format_user_report` of
`financial_intelligence/pipeline/pipeline.py`. Each `pages.append` of a
joined block becomes one entry of the block list; numeric rendering
enters as formatter parameters. -/

/-- Transaction row as seen by the report: categorized and with the
anomaly flag added by the anomaly-detection stage. -/
structure ARow where
  date : Date
  description : String
  amount : ℚ
  final_category : String
  anomaly : Int
deriving DecidableEq, Repr

/-- Spending per final category, as absolute sums sorted descending
(the `groupby("final_category")["amount"].sum().abs()` series). -/
def byCategory (df : List ARow) : List (String × ℚ) :=
  sortDescBy (fun p => p.2)
    (((df.map (fun r => r.final_category)).dedup).map (fun c =>
      (c, |((df.filter (fun r => r.final_category == c)).map (fun r => r.amount)).sum|)))

/-- The five report blocks, each a list of lines; joining each block
with newlines gives the source's `pages`. -/
def reportBlocks (fmtMoney fmtShare fmtAmt : ℚ → String)
    (fmtDate : Date → String) (df : List ARow)
    (recurring_groups : List (MGroup × Int)) (anomalies : List ARow)
    (savings : ℚ) (profile_advice : List String) : List (List String) :=
  let byCat := byCategory df
  let total := (byCat.map (fun p => p.2)).sum
  let b1 := "<b>КУДА УХОДЯТ ДЕНЬГИ</b>\n" ::
    byCat.map (fun p =>
      "- " ++ p.1 ++ ": " ++ fmtMoney p.2 ++ " ₽ (" ++
        fmtShare (p.2 / total * 100) ++ "%)")
  let b2 := "<b>ВАШИ РЕГУЛЯРНЫЕ ПЛАТЕЖИ</b>\n" ::
    (if recurring_groups.length = 0 then ["Регулярных платежей не найдено."]
     else (sortAscBy (fun p => p.1.total) recurring_groups).map (fun p =>
       "- " ++ p.1.description ++ " → " ++ toString p.1.count ++ " раз, ≈ " ++
         fmtMoney (|p.1.total| / (p.1.count : ℚ)) ++ " ₽, всего " ++
         fmtMoney |p.1.total| ++ " ₽"))
  let b3 := "<b>НЕОБЫЧНЫЕ ТРАТЫ</b>\n" ::
    (if anomalies.length = 0 then ["Аномальных операций не обнаружено."]
     else ((sortAscBy (fun r => r.amount) anomalies).take 10).map (fun r =>
       "- " ++ fmtDate r.date ++ " | " ++ r.description ++ " → " ++
         fmtAmt r.amount ++ " ₽"))
  let b4 := "<b>АНАЛИЗ ФИНАНСОВОГО ПОВЕДЕНИЯ</b>\n" ::
    profile_advice.map (fun l => "- " ++ l)
  let b5 := ["<b>ПОТЕНЦИАЛ ЭКОНОМИИ</b>\n",
    "Если оптимизировать выявленные привычки, можно сохранить около " ++
      fmtMoney |savings| ++ " ₽ за этот период."]
  [b1, b2, b3, b4, b5]

/-- The report pages as the source returns them: each block joined. -/
def format_user_report (fmtMoney fmtShare fmtAmt : ℚ → String)
    (fmtDate : Date → String) (df : List ARow)
    (recurring_groups : List (MGroup × Int)) (anomalies : List ARow)
    (savings : ℚ) (profile_advice : List String) : List String :=
  (reportBlocks fmtMoney fmtShare fmtAmt fmtDate df recurring_groups
    anomalies savings profile_advice).map (String.intercalate "\n")

/-! ## Header detection (§4.1)

Embeds `BankStatementLoader._find_header_row` of `loader/loader.py`. -/

/-- Score of one raw row: how many required keywords occur (lowercased,
as substrings) in some cell of the row; the inner `break` of the source
makes each keyword count at most once. -/
def rowScore (required : List String) (row : List String) : Nat :=
  required.countP (fun col =>
    row.any (fun cell => strContains (lowerStr cell) (lowerStr col)))

/-- The scan loop over the (already scored) rows, carrying the loop
state `best_i`, `best_score` (initialized to `-1`); `.inl i` is the
early return on a score reaching `required − 1`. -/
def scanScores (thr : Nat) : List Nat → Nat → Nat → Int → Sum Nat (Nat × Int)
  | [], _, bI, bS => Sum.inr (bI, bS)
  | s :: rest, i, bI, bS =>
    let p := if (s : Int) > bS then (i, (s : Int)) else (bI, bS)
    if thr ≤ s then Sum.inl i
    else scanScores thr rest (i + 1) p.1 p.2

/-- The header-not-found failure message of the source. -/
def headerNotFoundMsg : String := "Не удалось найти строку заголовков."

/-- Embeds `_find_header_row`: scan at most `maxScan` rows, return the
first row scoring at least `required.length - 1` immediately, otherwise
the best row; fail when the best score is not positive. -/
def find_header_row (rows : List (List String)) (required : List String)
    (maxScan : Nat := 200) : Except String Nat :=
  match scanScores (required.length - 1) ((rows.take maxScan).map (rowScore required)) 0 0 (-1) with
  | Sum.inl i => Except.ok i
  | Sum.inr (bI, bS) =>
    if bS ≤ 0 then Except.error headerNotFoundMsg else Except.ok bI

/-! ### Claim-side header detection

States §4.1's words directly: first row reaching the threshold, else the
earliest row with the maximal score, else a typed failure when no row
scores above zero. -/

/-- Maximum of a list of scores (0 on the empty list). -/
def maxScore : List Nat → Nat
  | [] => 0
  | s :: rest => max s (maxScore rest)

/-- Header detection as the spec words it. -/
def headerSpecFn (rows : List (List String)) (required : List String)
    (maxScan : Nat := 200) : Except String Nat :=
  match ((rows.take maxScan).map (rowScore required)).findIdx?
      (fun s => required.length - 1 ≤ s) with
  | some j => Except.ok j
  | none =>
    if maxScore ((rows.take maxScan).map (rowScore required)) = 0 then
      Except.error headerNotFoundMsg
    else
      Except.ok (((rows.take maxScan).map (rowScore required)).findIdx
        (fun s => s = maxScore ((rows.take maxScan).map (rowScore required))))

/-! ## Ingestion-time category defaulting (§4.1)

Embeds the category-column defaulting of
`BankStatementLoader._normalize_columns`: when no raw column mapped to
`category`, the whole column is filled with a literal default. -/

/-- The ingestion-time default sentinel written when the statement has
no category column. -/
def ingestDefaultCategory : String := "Другое"

/-- Category value of a row after `_normalize_columns`: the bank's
value when a category column was detected, the default otherwise. -/
def ingest_category (bankCategory : Option String) : String :=
  match bankCategory with
  | some c => c
  | none => ingestDefaultCategory

/-! ## Pipeline table flow (§2)

Embeds the table handoffs of `AnalyzerPipeline.run` between the
categorizer, the reclassifier, the recurring-payment detector and the
anomaly-detection stage. A Python stage that mutates the table in place
is a function from the old table value to the new one; the recurring
detector works on a filtered `.copy()`, so the binding handed to the
anomaly stage is the reclassifier's output itself. -/

structure PipelineTables where
  categorized : List CatRow
  reclassified : List CatRow
  recurring_groups : List (MGroup × Int)
  anomalyInput : List CatRow
deriving Repr

/-- Table flow of `AnalyzerPipeline.run` from the categorizer to the
anomaly stage. -/
def analyzer_pipeline_tables (mccClassify : Option Nat → Option String)
    (semCat : String → String) (semScore : String → ℚ)
    (predict : String → String) (labelFn : List MGroup → MGroup → Int)
    (df0 : List TxRow) : PipelineTables :=
  let df1 := smartCategoryTable mccClassify semCat semScore df0
  let df2 := classify_other_operations predict df1
  let recurring := searchRun labelFn df2
  { categorized := df1, reclassified := df2,
    recurring_groups := recurring, anomalyInput := df2 }

/-! ## Concrete rows used by counterexamples and witnesses -/

/-- A money-movement transaction whose bank category is a concrete
non-sentinel label. -/
def c1row : TxRow :=
  { date := ⟨2024, 2, 1⟩, description := "перевод другу", amount := -100,
    category := "Супермаркеты", mcc := none }

/-- A non-money transaction ingested from a statement without a
category column (so its category is the ingestion default), carrying an
MCC. -/
def c4row : TxRow :=
  { date := ⟨2024, 1, 10⟩, description := "кофейня", amount := -5,
    category := ingest_category none, mcc := some 5411 }

/-! ## C2: the categorization cascade -/

/-- C2: for every row, the categorizer's `final_category` equals the
first-match evaluation of the four ordered cascade rules of §4.2 (money
movement, trusted bank category, MCC lookup, semantic label), some rule
always fires, the money-movement rule overrides everything else, and
the semantic score function never affects the result. -/
theorem categorizer_cascade_contract (mccC : Option Nat → Option String)
    (semC : String → String) (semS semS2 : String → ℚ) (r : TxRow) :
    (firstMatch (cascadeRules mccC semC) r).isSome = true
    ∧ (smart_category mccC semC semS r).final_category
        = (firstMatch (cascadeRules mccC semC) r).getD ""
    ∧ ((smart_category mccC semC semS r).is_money = true →
        (smart_category mccC semC semS r).final_category = financialOps)
    ∧ (smart_category mccC semC semS2 r).final_category
        = (smart_category mccC semC semS r).final_category := by
  by_cases him : is_money_movement r.description <;>
    by_cases hcat : r.category = otherOpsSentinel <;>
      cases hmcc : mccC r.mcc <;>
        simp [smart_category, firstMatch, cascadeRules, him, hcat, hmcc]

/-- Witness for C2 at a concrete money-movement row: the implication
conjunct fires with its hypothesis discharged. -/
theorem categorizer_cascade_contract_witness :
    (smart_category (fun _ => none) (fun _ => "Продукты") (fun _ => 0) c1row).final_category
      = financialOps :=
  (categorizer_cascade_contract (fun _ => none) (fun _ => "Продукты")
    (fun _ => 0) (fun _ => 1) c1row).2.2.1 rfl

/-! ## C7: idempotence of the categorizer -/

/-- C7: re-running the categorizer on its own output (whose base
columns `description`, `category`, `mcc` it never modifies) reproduces
exactly the same derived columns, row by row and table wide. -/
theorem categorizer_idempotent (mccC : Option Nat → Option String)
    (semC : String → String) (semS : String → ℚ) (df : List TxRow) :
    smartCategoryTable mccC semC semS
        ((smartCategoryTable mccC semC semS df).map CatRow.base)
      = smartCategoryTable mccC semC semS df
    ∧ ∀ r : TxRow,
        smart_category mccC semC semS (CatRow.base (smart_category mccC semC semS r))
          = smart_category mccC semC semS r :=
  ⟨by simp [smartCategoryTable, List.map_map]; intro a _; rfl, fun _ => rfl⟩

/-! ## C4: the ingestion default is not the cascade sentinel -/

/-- C4 counterexample: a non-money row whose category is the ingestion
default "Другое" and whose MCC lookup succeeds still gets the default
verbatim as `final_category` — the cascade compares against
"Прочие операции", so the defaulted row does not fall through to the
MCC category. -/
theorem default_sentinel_counterexample :
    (smart_category (fun _ => some "Супермаркеты") (fun _ => "Кафе") (fun _ => 0) c4row).is_money
      = false
    ∧ (smart_category (fun _ => some "Супермаркеты") (fun _ => "Кафе") (fun _ => 0) c4row).mcc_category
      = some "Супермаркеты"
    ∧ (smart_category (fun _ => some "Супермаркеты") (fun _ => "Кафе") (fun _ => 0) c4row).final_category
      = ingestDefaultCategory
    ∧ ingestDefaultCategory ≠ "Супермаркеты" :=
  ⟨rfl, rfl, by decide, by decide⟩

/-- C4 amended: a non-money row carrying the ingestion-time default
category is treated as a trusted bank category: since the default
"Другое" differs from the cascade sentinel "Прочие операции", the
cascade returns it verbatim and never consults the MCC or semantic
fallbacks. -/
theorem default_sentinel_amended (mccC : Option Nat → Option String)
    (semC : String → String) (semS : String → ℚ) (r : TxRow)
    (h1 : is_money_movement r.description = false)
    (h2 : r.category = ingest_category none) :
    (smart_category mccC semC semS r).final_category = ingestDefaultCategory := by
  simp [smart_category, h1, h2, ingest_category, ingestDefaultCategory, otherOpsSentinel]

/-- Witness for C4's amended theorem at the concrete defaulted row. -/
theorem default_sentinel_amended_witness :
    is_money_movement c4row.description = false
    ∧ c4row.category = ingest_category none
    ∧ (smart_category (fun _ => some "Супермаркеты") (fun _ => "Кафе") (fun _ => 0) c4row).final_category
      = ingestDefaultCategory :=
  ⟨rfl, rfl, default_sentinel_amended _ _ _ c4row rfl rfl⟩

/-! ## C1: the money-movement invariant does not survive the
reclassifier -/

/-- C1 counterexample: a money-movement row with bank category
"Супермаркеты" is assigned "Финансовые операции" by the categorizer,
but the other-operations reclassifier overwrites `final_category` of
every non-sentinel row with the bank category verbatim, so the table
consumed downstream carries `is_money = true` with
`final_category = "Супермаркеты"`. -/
theorem money_override_counterexample :
    ((classify_other_operations (fun _ => otherOpsSentinel)
        (smartCategoryTable (fun _ => none) (fun _ => "Продукты") (fun _ => 0) [c1row])).map
      (fun r => (r.is_money, r.final_category)))
      = [(true, "Супермаркеты")]
    ∧ ("Супермаркеты" : String) ≠ financialOps :=
  ⟨by decide, by decide⟩

/-- C1 amended: immediately after the categorizer every row's
`final_category` is set (non-null by construction) and every
money-movement row carries "Финансовые операции"; the reclassifier then
assigns `final_category` a second time for every row — the model
prediction where the bank category is the "Прочие операции" sentinel
and the bank category verbatim elsewhere — so in the table consumed by
the downstream stages the money-movement override survives only when
the bank category itself resolves there. -/
theorem money_override_amended (mccC : Option Nat → Option String)
    (semC : String → String) (semS : String → ℚ)
    (predict : String → String) (df : List TxRow) :
    (∀ r ∈ smartCategoryTable mccC semC semS df,
        r.is_money = true → r.final_category = financialOps)
    ∧ (∀ r ∈ classify_other_operations predict (smartCategoryTable mccC semC semS df),
        r.final_category =
          if r.category = otherOpsSentinel then predict r.description else r.category) := by
  constructor
  · intro r hr him
    rcases List.mem_map.mp hr with ⟨x, _, rfl⟩
    simp only [smart_category] at him ⊢
    simp [him]
  · intro r hr
    rcases List.mem_map.mp hr with ⟨y, _, rfl⟩
    by_cases hc : y.category = otherOpsSentinel <;>
      simp [classify_other_operations, hc]

/-- Witness for C1's amended theorem: both parts instantiated at the
concrete money-movement row. -/
theorem money_override_amended_witness :
    (smart_category (fun _ => none) (fun _ => "Продукты") (fun _ => 0) c1row).final_category
      = financialOps
    ∧ (classify_other_operations (fun _ => otherOpsSentinel)
        (smartCategoryTable (fun _ => none) (fun _ => "Продукты") (fun _ => 0) [c1row])).map
          (fun r => r.final_category) = ["Супермаркеты"] := by
  constructor
  · exact (money_override_amended (fun _ => none) (fun _ => "Продукты") (fun _ => 0)
      (fun _ => otherOpsSentinel) [c1row]).1
      (smart_category (fun _ => none) (fun _ => "Продукты") (fun _ => 0) c1row)
      (by simp [smartCategoryTable]) rfl
  · decide

/-! ## C5: degenerate profiles yield zero savings -/

/-- C5: when the profile has no normal month-rows or no abnormal
month-rows, the savings estimator returns exactly 0, whatever the
recurring-groups input — in particular the 60 percent recurring term is
never added. -/
theorem savings_zero_on_degenerate_profile
    (recurring_groups : List (MGroup × Int)) (profile : List ProfileRow)
    (h : (profile.filter (fun r => !r.is_abnormal_month)).length = 0
       ∨ (profile.filter (fun r => r.is_abnormal_month)).length = 0) :
    estimate_savings recurring_groups profile = 0 := by
  unfold estimate_savings
  rcases h with h | h <;> simp [h]

/-- A profile whose single month-row is normal. -/
def normalOnlyProfile : List ProfileRow :=
  [{ month := "2024-01", vals := [5], is_abnormal_month := false }]

/-- Witness for C5: an empty recurring-groups table together with a
profile having no abnormal months yields zero savings. -/
theorem savings_zero_on_degenerate_profile_witness :
    (normalOnlyProfile.filter (fun r => r.is_abnormal_month)).length = 0
    ∧ estimate_savings [] normalOnlyProfile = 0 :=
  ⟨rfl, savings_zero_on_degenerate_profile [] normalOnlyProfile (Or.inr rfl)⟩

/-! ## Helper lemmas for the recurring-payment detector -/

lemma le_foldl_max (l : List Nat) (a : Nat) : a ≤ l.foldl max a := by
  induction l generalizing a with
  | nil => exact le_refl a
  | cons x xs ih => exact le_trans (le_max_left a x) (ih (max a x))

lemma foldl_min_le (l : List Nat) (a : Nat) : l.foldl min a ≤ a := by
  induction l generalizing a with
  | nil => exact le_refl a
  | cons x xs ih => exact le_trans (ih (min a x)) (min_le_left a x)

lemma sum_neg_of_all_neg (l : List ℚ) (h : ∀ a ∈ l, a < 0) (hne : l ≠ []) :
    l.sum < 0 := by
  induction l with
  | nil => exact absurd rfl hne
  | cons x xs ih =>
    rcases eq_or_ne xs [] with hxs | hxs
    · subst hxs; simpa using h x (by simp)
    · have hx : x < 0 := h x (by simp)
      have hs : xs.sum < 0 := ih (fun a ha => h a (by simp [ha])) hxs
      simpa using add_neg hx hs

/-- The month span of any group is at least one month. -/
lemma one_le_spanOf (g : MGroup) : 1 ≤ spanOf g := by
  have h1 := foldl_min_le (g.dates.map monthOf) ((g.dates.map monthOf).headD 0)
  have h2 := le_foldl_max (g.dates.map monthOf) ((g.dates.map monthOf).headD 0)
  simp only [spanOf]
  omega

/-- Projecting the group component out of the labelled-and-filtered
pairs gives the plain `is_recurring` filter, for any labelling. -/
lemma filter_pair_fst (f : MGroup → Int) (l : List MGroup) :
    ((l.map (fun g => (g, f g))).filter (fun p => is_recurring p.1)).map Prod.fst
      = l.filter (fun g => is_recurring g) := by
  induction l with
  | nil => rfl
  | cons x xs ih => by_cases hx : is_recurring x <;> simp [hx, ih]

/-- Every aggregated group is built from a selection of the grouped
rows: its amounts, dates and count all come from that selection. -/
lemma aggGroups_mem (rows : List MRow) (g : MGroup) (hg : g ∈ aggGroups rows) :
    ∃ sel : List MRow, (∀ r ∈ sel, r ∈ rows)
      ∧ g.amounts = sel.map (fun r => r.amount)
      ∧ g.count = sel.length := by
  rcases List.mem_map.mp hg with ⟨k, _, rfl⟩
  exact ⟨rows.filter (fun r => r.merchant_id == k),
    fun r hr => (List.mem_filter.mp hr).1, rfl, rfl⟩

/-- A row of the expense-filtered copy has a strictly negative amount. -/
lemma amount_neg_of_mem_filtered (df : List CatRow) (r : MRow)
    (hr : r ∈ addMerchantIds (filter_real_expenses df)) : r.amount < 0 := by
  rcases List.mem_map.mp hr with ⟨c, hc, rfl⟩
  have hc2 := (List.mem_filter.mp hc).2
  have := (Bool.and_eq_true _ _).mp hc2
  exact of_decide_eq_true this.2

/-! ## C9: the divisions of the recurring rule are well-defined -/

/-- C9: every group that reaches the `is_recurring` rule was aggregated
from expense-filtered rows only and passed the count filter, so all its
amounts are strictly negative, its mean amount is strictly negative
(hence nonzero, making the coefficient-of-variation division
well-defined) and its month span is at least 1 (making the coverage
division well-defined). -/
theorem recurring_divisions_safe (df : List CatRow) (g : MGroup)
    (hg : g ∈ detectGroups df) :
    3 ≤ g.count ∧ g.amounts.length = g.count
    ∧ (∀ a ∈ g.amounts, a < 0)
    ∧ meanAmtOf g < 0 ∧ meanAmtOf g ≠ 0 ∧ 1 ≤ spanOf g := by
  unfold detectGroups at hg
  rcases List.mem_filter.mp hg with ⟨hmem, hcnt⟩
  have hcnt3 : 3 ≤ g.count := by simpa using hcnt
  rcases aggGroups_mem _ _ hmem with ⟨sel, hsel, hamt, hlen⟩
  have hneg : ∀ a ∈ g.amounts, a < 0 := by
    intro a ha
    rw [hamt] at ha
    rcases List.mem_map.mp ha with ⟨r, hr, rfl⟩
    exact amount_neg_of_mem_filtered df r (hsel r hr)
  have hlen2 : g.amounts.length = g.count := by rw [hamt, hlen, List.length_map]
  have hmean : meanAmtOf g < 0 := by
    apply div_neg_of_neg_of_pos
    · apply sum_neg_of_all_neg _ hneg
      intro hnil
      rw [hnil] at hlen2
      simp at hlen2
      omega
    · have : 0 < g.amounts.length := by omega
      exact_mod_cast this
  exact ⟨hcnt3, hlen2, hneg, hmean, ne_of_lt hmean, one_le_spanOf g⟩

/-! ## C3: only rule-passing groups are returned; labels are
diagnostic -/

/-- C3: every merchant group returned by the recurring detector has at
least 3 transactions, at least 3 distinct payment months, coverage of
at least one half of its month span, and a coefficient of variation of
amount magnitude below 0.7 (stated squared: variance below
0.49 · mean²); and the returned groups are the same whatever cluster
labels DBSCAN produces. -/
theorem recurring_groups_pass_rule
    (labelFn labelFn2 : List MGroup → MGroup → Int) (df : List CatRow) :
    (∀ p ∈ searchRun labelFn df,
        3 ≤ p.1.count ∧ 3 ≤ nMonthsOf p.1 ∧ (1 / 2 : ℚ) ≤ coverageOf p.1
          ∧ meanAmtOf p.1 ≠ 0
          ∧ varAmtOf p.1 < (49 / 100 : ℚ) * (meanAmtOf p.1) ^ 2)
    ∧ (searchRun labelFn df).map Prod.fst = (searchRun labelFn2 df).map Prod.fst := by
  constructor
  · intro p hp
    unfold searchRun at hp
    by_cases hemp : (detectGroups df).isEmpty
    · simp [hemp] at hp
    · rw [if_neg (by simpa using hemp)] at hp
      rcases List.mem_filter.mp hp with ⟨hmem, hrec⟩
      have hfst : p.1 ∈ detectGroups df := by
        rcases List.mem_map.mp hmem with ⟨x, hx, rfl⟩
        exact hx
      have hcnt : 3 ≤ p.1.count := by
        have := (List.mem_filter.mp hfst).2
        simpa using this
      have hconds := hrec
      simp only [is_recurring, cvOk, Bool.and_eq_true, decide_eq_true_eq] at hconds
      exact ⟨hcnt, hconds.1.1, hconds.1.2, hconds.2.1, hconds.2.2⟩
  · by_cases hemp : (detectGroups df).isEmpty <;>
      simp [searchRun, hemp, filter_pair_fst]

/-! ### Concrete recurring-payment data for the witnesses -/

/-- One monthly subscription debit. -/
def recRow (m : Nat) : CatRow :=
  { date := ⟨2024, m, 15⟩, description := "NETFLIX", amount := -10,
    category := otherOpsSentinel, mcc := none, is_money := false,
    mcc_category := none, semantic_category := "Развлечения",
    semantic_score := 0, final_category := "Развлечения" }

/-- Three monthly debits of the same merchant. -/
def recDf : List CatRow := [recRow 1, recRow 2, recRow 3]

/-- The merchant group that `recDf` aggregates to. -/
def recGroup : MGroup :=
  { merchant_id := "netflix|", description := "NETFLIX",
    dates := [⟨2024, 1, 15⟩, ⟨2024, 2, 15⟩, ⟨2024, 3, 15⟩],
    amounts := [-10, -10, -10], count := 3, total := -30 }

lemma recGroup_mean : meanAmtOf recGroup = -10 := by
  unfold meanAmtOf
  norm_num [recGroup, List.sum_cons, List.sum_nil]

lemma recGroup_var : varAmtOf recGroup = 0 := by
  unfold varAmtOf
  rw [recGroup_mean]
  norm_num [recGroup, List.sum_cons, List.sum_nil]

lemma recGroup_is_recurring : is_recurring recGroup = true := by
  have hm : nMonthsOf recGroup = 3 := by decide
  have hs : spanOf recGroup = 3 := by decide
  unfold is_recurring cvOk coverageOf
  rw [hm, hs, recGroup_mean, recGroup_var]
  norm_num

lemma recDf_detect : detectGroups recDf = [recGroup] := by
  have h1 : filter_real_expenses recDf = recDf := by decide
  have hkeys : ((addMerchantIds recDf).map (fun r => r.merchant_id)).dedup
      = ["netflix|"] := by decide
  have hfil : (addMerchantIds recDf).filter (fun r => r.merchant_id == "netflix|")
      = addMerchantIds recDf := by decide
  unfold detectGroups aggGroups
  rw [h1, hkeys]
  simp only [List.map_cons, List.map_nil, hfil]
  norm_num [recGroup, addMerchantIds, recDf, recRow, List.sum_cons, List.sum_nil,
    strTake, List.filter]

lemma searchRun_recDf : searchRun (fun _ _ => 0) recDf = [(recGroup, 0)] := by
  unfold searchRun
  rw [recDf_detect]
  simp [recGroup_is_recurring]

/-- Witness for C3 at the concrete three-month subscription table. -/
theorem recurring_groups_pass_rule_witness :
    (recGroup, (0 : Int)) ∈ searchRun (fun _ _ => 0) recDf
    ∧ (3 ≤ recGroup.count ∧ 3 ≤ nMonthsOf recGroup
        ∧ (1 / 2 : ℚ) ≤ coverageOf recGroup
        ∧ meanAmtOf recGroup ≠ 0
        ∧ varAmtOf recGroup < (49 / 100 : ℚ) * (meanAmtOf recGroup) ^ 2) :=
  have hmem : (recGroup, (0 : Int)) ∈ searchRun (fun _ _ => 0) recDf := by
    rw [searchRun_recDf]; exact List.mem_singleton.mpr rfl
  ⟨hmem, (recurring_groups_pass_rule (fun _ _ => 0) (fun _ _ => 1) recDf).1 _ hmem⟩

/-- Witness for C9 at the concrete three-month subscription table. -/
theorem recurring_divisions_safe_witness :
    recGroup ∈ detectGroups recDf
    ∧ meanAmtOf recGroup < 0 ∧ 1 ≤ spanOf recGroup :=
  have hmem : recGroup ∈ detectGroups recDf := by
    rw [recDf_detect]; exact List.mem_singleton.mpr rfl
  have h := recurring_divisions_safe recDf recGroup hmem
  ⟨hmem, h.2.2.2.1, h.2.2.2.2.2⟩

/-! ## C10: the detector leaves the pipeline table untouched -/

/-- C10: in the pipeline's table flow the recurring-payment stage hands
the anomaly-detection stage exactly the reclassifier's output — the
detector computes its groups from an expense-filtered copy of the table
(only that copy carries a `merchant_id` column, by type), and its
result is a function of that filtered copy alone. -/
theorem recurring_stage_frame (mccClassify : Option Nat → Option String)
    (semCat : String → String) (semScore : String → ℚ)
    (predict : String → String) (labelFn : List MGroup → MGroup → Int)
    (df0 : List TxRow) :
    (analyzer_pipeline_tables mccClassify semCat semScore predict labelFn df0).anomalyInput
      = classify_other_operations predict (smartCategoryTable mccClassify semCat semScore df0)
    ∧ (analyzer_pipeline_tables mccClassify semCat semScore predict labelFn df0).recurring_groups
      = searchRun labelFn
          (classify_other_operations predict (smartCategoryTable mccClassify semCat semScore df0))
    ∧ ∀ df : List CatRow, searchRun labelFn df = searchRun labelFn (filter_real_expenses df) := by
  refine ⟨rfl, rfl, ?_⟩
  intro df
  have hff : filter_real_expenses (filter_real_expenses df) = filter_real_expenses df := by
    simp [filter_real_expenses, List.filter_filter]
  simp [searchRun, detectGroups, hff]

/-! ## C8: degenerate results still render their designated sentences -/

/-- C8: with an empty recurring-groups table the recurring block is the
header plus the designated not-found sentence; with no row flagged
`anomaly == 1` the anomalies block is the header plus its designated
not-found sentence; with no abnormal month the behavioral advice is
exactly the one reassuring sentence; and the savings block is rendered
in every report (the block list always has all five blocks, the last
being the savings sentence). -/
theorem report_degenerate (fmtMoney fmtShare fmtAmt : ℚ → String)
    (fmtDate : Date → String) (fmtQ : ℚ → String) (cats : List String)
    (df adf : List ARow) (savings : ℚ)
    (recurring_groups : List (MGroup × Int)) (profile : List ProfileRow)
    (hrec : recurring_groups = [])
    (hanom : ∀ r ∈ adf, r.anomaly ≠ 1)
    (hprof : ∀ p ∈ profile, p.is_abnormal_month = false) :
    explain_monthly_anomalies fmtQ cats profile = [stableAdvice]
    ∧ (reportBlocks fmtMoney fmtShare fmtAmt fmtDate df recurring_groups
        (adf.filter (fun r => r.anomaly == 1)) savings
        (explain_monthly_anomalies fmtQ cats profile)).getD 1 []
      = ["<b>ВАШИ РЕГУЛЯРНЫЕ ПЛАТЕЖИ</b>\n", "Регулярных платежей не найдено."]
    ∧ (reportBlocks fmtMoney fmtShare fmtAmt fmtDate df recurring_groups
        (adf.filter (fun r => r.anomaly == 1)) savings
        (explain_monthly_anomalies fmtQ cats profile)).getD 2 []
      = ["<b>НЕОБЫЧНЫЕ ТРАТЫ</b>\n", "Аномальных операций не обнаружено."]
    ∧ (reportBlocks fmtMoney fmtShare fmtAmt fmtDate df recurring_groups
        (adf.filter (fun r => r.anomaly == 1)) savings
        (explain_monthly_anomalies fmtQ cats profile)).length = 5
    ∧ (reportBlocks fmtMoney fmtShare fmtAmt fmtDate df recurring_groups
        (adf.filter (fun r => r.anomaly == 1)) savings
        (explain_monthly_anomalies fmtQ cats profile)).getD 4 []
      = ["<b>ПОТЕНЦИАЛ ЭКОНОМИИ</b>\n",
        "Если оптимизировать выявленные привычки, можно сохранить около " ++
          fmtMoney |savings| ++ " ₽ за этот период."] := by
  have hab : profile.filter (fun r => r.is_abnormal_month) = [] := by
    rw [List.filter_eq_nil_iff]
    intro p hp
    simp [hprof p hp]
  have hadv : explain_monthly_anomalies fmtQ cats profile = [stableAdvice] := by
    unfold explain_monthly_anomalies
    rw [hab]
    simp
  have hano : adf.filter (fun r => r.anomaly == 1) = [] := by
    rw [List.filter_eq_nil_iff]
    intro r hr
    simp [hanom r hr]
  subst hrec
  refine ⟨hadv, ?_, ?_, ?_, ?_⟩ <;> simp [reportBlocks, hano]

/-- Witness for C8 with every degenerate input concrete. -/
theorem report_degenerate_witness :
    explain_monthly_anomalies (fun _ => "") [] [] = [stableAdvice]
    ∧ (reportBlocks (fun _ => "") (fun _ => "") (fun _ => "") (fun _ => "") []
        [] (([] : List ARow).filter (fun r => r.anomaly == 1)) 0
        (explain_monthly_anomalies (fun _ => "") [] [])).length = 5 :=
  have h := report_degenerate (fun _ => "") (fun _ => "") (fun _ => "") (fun _ => "")
    (fun _ => "") [] [] [] 0 [] [] rfl
    (by intro r hr; cases hr) (by intro p hp; cases hp)
  ⟨h.1, h.2.2.2.1⟩


/-- The pure best-row fold of the scan loop, without the early return. -/
def bestPair : List Nat → Nat → Nat → Int → Nat × Int
  | [], _, bI, bS => (bI, bS)
  | s :: rest, i, bI, bS =>
    if (s : Int) > bS then bestPair rest (i + 1) i s
    else bestPair rest (i + 1) bI bS

lemma scanScores_eq (thr : Nat) (scores : List Nat) : ∀ (i bI : Nat) (bS : Int),
    scanScores thr scores i bI bS =
      match List.findIdx? (fun s => thr ≤ s) scores i with
      | some j => Sum.inl j
      | none => Sum.inr (bestPair scores i bI bS) := by
  induction scores with
  | nil => intro i bI bS; rfl
  | cons s rest ih =>
    intro i bI bS
    by_cases hs : thr ≤ s
    · simp [scanScores, List.findIdx?_cons, hs]
    · by_cases hb : (s : Int) > bS <;>
        simp only [scanScores, bestPair, List.findIdx?_cons, hs, hb, decide_True,
          decide_False, if_true, if_false, ite_true, ite_false] <;>
        rw [ih] <;> simp

lemma maxScore_cons (s : Nat) (rest : List Nat) :
    maxScore (s :: rest) = max s (maxScore rest) := rfl

lemma bestPair_eq (scores : List Nat) : ∀ (i bI : Nat) (bS : Int),
    bestPair scores i bI bS =
      if bS < (maxScore scores : Int) ∧ scores ≠ [] then
        (i + scores.findIdx (fun s => s = maxScore scores), (maxScore scores : Int))
      else (bI, bS) := by
  induction scores with
  | nil => intro i bI bS; simp [bestPair]
  | cons s rest ih =>
    intro i bI bS
    by_cases hb : (s : Int) > bS
    · rw [show bestPair (s :: rest) i bI bS = bestPair rest (i + 1) i s from by
        simp [bestPair, hb]]
      rw [ih]
      by_cases hr : (s : Int) < (maxScore rest : Int) ∧ rest ≠ []
      · have hsm : s < maxScore rest := by exact_mod_cast hr.1
        have hmax : maxScore (s :: rest) = maxScore rest := by
          rw [maxScore_cons]; omega
        rw [if_pos hr, if_pos (by rw [hmax]; exact ⟨by omega, by simp⟩)]
        have hfi : (s :: rest).findIdx (fun x => x = maxScore (s :: rest))
            = rest.findIdx (fun x => x = maxScore rest) + 1 := by
          rw [List.findIdx_cons, hmax]
          simp [show ¬(s = maxScore rest) from by omega]
        rw [hfi, hmax]
        simp
        omega
      · have hle : maxScore rest ≤ s := by
          rcases not_and_or.mp hr with h | h
          · have : ¬ ((s:Int) < (maxScore rest : Int)) := h
            omega
          · have : rest = [] := not_not.mp h
            simp [this, maxScore]
        have hmax : maxScore (s :: rest) = s := by
          rw [maxScore_cons]; omega
        rw [if_neg hr, if_pos (by rw [hmax]; exact ⟨by omega, by simp⟩)]
        have hfi : (s :: rest).findIdx (fun x => x = maxScore (s :: rest)) = 0 := by
          rw [List.findIdx_cons, hmax]
          simp
        rw [hfi, hmax]
        simp
    · rw [show bestPair (s :: rest) i bI bS = bestPair rest (i + 1) bI bS from by
        simp [bestPair, hb]]
      rw [ih]
      by_cases hr : bS < (maxScore rest : Int) ∧ rest ≠ []
      · have hsr : (s : Int) ≤ bS := by omega
        have hmax : maxScore (s :: rest) = maxScore rest := by
          rw [maxScore_cons]; omega
        rw [if_pos hr, if_pos (by rw [hmax]; exact ⟨hr.1, by simp⟩)]
        have hfi : (s :: rest).findIdx (fun x => x = maxScore (s :: rest))
            = rest.findIdx (fun x => x = maxScore rest) + 1 := by
          rw [List.findIdx_cons, hmax]
          simp [show ¬(s = maxScore rest) from by omega]
        rw [hfi, hmax]
        simp
        omega
      · rw [if_neg hr, if_neg ?_]
        rcases not_and_or.mp hr with h | h
        · intro hc
          rcases hc with ⟨hc1, _⟩
          rw [maxScore_cons] at hc1
          have h1 : ¬ bS < (maxScore rest : Int) := h
          have h2 : (s : Int) ≤ bS := by omega
          omega
        · have hrest : rest = [] := not_not.mp h
          intro hc
          rcases hc with ⟨hc1, _⟩
          rw [hrest, maxScore_cons] at hc1
          simp [maxScore] at hc1
          omega

lemma maxScore_eq_zero_iff (scores : List Nat) :
    maxScore scores = 0 ↔ ∀ s ∈ scores, s = 0 := by
  induction scores with
  | nil => simp [maxScore]
  | cons s rest ih => simp [maxScore_cons, Nat.max_eq_zero_iff, ih]

/-- C6: header detection scans at most the first 200 rows; it returns
the first scanned row whose keyword score reaches
`required.length - 1`, otherwise the earliest row with the maximal
score (this is exactly `headerSpecFn`, the spec-worded detector, proved
equal to the loop here); and it fails with the typed header-not-found
error precisely when no scanned row scores above zero. -/
theorem header_detection (rows : List (List String)) (required : List String)
    (h2 : 2 ≤ required.length) :
    find_header_row rows required = headerSpecFn rows required
    ∧ find_header_row rows required = find_header_row (rows.take 200) required
    ∧ (find_header_row rows required = Except.error headerNotFoundMsg
        ↔ ∀ s ∈ (rows.take 200).map (rowScore required), s = 0) := by
  have hmain : ∀ rs : List (List String),
      find_header_row rs required = headerSpecFn rs required := by
    intro rs
    unfold find_header_row headerSpecFn
    rw [scanScores_eq]
    cases hfi : List.findIdx? (fun s => required.length - 1 ≤ s)
        ((rs.take 200).map (rowScore required)) with
    | some j => simp [hfi]
    | none =>
      rw [bestPair_eq]
      by_cases hne : (rs.take 200).map (rowScore required) = []
      · simp [hfi, hne, maxScore]
      · have hM : (-1 : Int) < (maxScore ((rs.take 200).map (rowScore required)) : Int) := by
          have := Int.ofNat_nonneg (maxScore ((rs.take 200).map (rowScore required)))
          omega
        rw [if_pos ⟨hM, hne⟩]
        simp only [hfi]
        by_cases hz : maxScore ((rs.take 200).map (rowScore required)) = 0
        · simp [hz]
        · rw [if_neg (by omega), if_neg hz]
          simp
  refine ⟨hmain rows, ?_, ?_⟩
  · unfold find_header_row
    rw [List.take_take]
    simp
  · rw [hmain rows]
    unfold headerSpecFn
    cases hfi : List.findIdx? (fun s => required.length - 1 ≤ s)
        ((rows.take 200).map (rowScore required)) with
    | some j =>
      simp only [hfi]
      constructor
      · intro h
        cases h
      · intro hall
        have : List.findIdx? (fun s => required.length - 1 ≤ s)
            ((rows.take 200).map (rowScore required)) = none := by
          rw [List.findIdx?_eq_none_iff]
          intro x hx
          rw [hall x hx]
          simp
          omega
        rw [this] at hfi
        cases hfi
    | none =>
      simp only [hfi]
      by_cases hz : maxScore ((rows.take 200).map (rowScore required)) = 0
      · rw [if_pos hz]
        simp only [hz]
        constructor
        · intro _
          exact (maxScore_eq_zero_iff _).mp hz
        · intro _
          trivial
      · rw [if_neg hz]
        constructor
        · intro h
          cases h
        · intro hall
          exact absurd ((maxScore_eq_zero_iff _).mpr hall) hz

/-- The required header keywords the loader scans for. -/
def requiredKeywords : List String := ["дата", "сум", "опис", "катег"]

/-- Example sheet of §8: row 5 holds all four keyword fragments and no
other row matches any. -/
def exampleSheet : List (List String) :=
  [["выписка"], ["клиент: иванов"], ["период"], ["реквизиты"], ["итого"],
   ["дата операции", "сумма", "описание", "категория"],
   ["01.01.2024", "-100", "кафе", "прочие операции"]]

/-- Witness for C6: the concrete sheet whose row 5 carries every
keyword fragment is detected at index 5. -/
theorem header_detection_witness :
    2 ≤ requiredKeywords.length
    ∧ find_header_row exampleSheet requiredKeywords
        = headerSpecFn exampleSheet requiredKeywords
    ∧ find_header_row exampleSheet requiredKeywords = Except.ok 5 :=
  ⟨by decide, (header_detection exampleSheet requiredKeywords (by decide)).1, rfl⟩

end ExpenseAdvisor
